import Mathlib

/-!
Verification of the axios idempotency plugin: a shallow embedding of the
repository's coordinator (src/plugin.ts), utility functions (src/utils.ts),
storage adapters (src/storage/memory.ts, src/storage/redis.ts) and the
idempotency-key builder, together with theorems settling the specification's
claims about them.

JavaScript values that matter to the embedded code paths are modelled
explicitly: JSON documents as an inductive `Json` (numbers restricted to
integers, which covers every value the claims touch), exceptions as
`Option`/`Except`, JavaScript truthiness as `jsTruthy`, and wall-clock time
as a natural number of milliseconds carried in the storage state.
-/

/-- JSON documents, as produced by JSON.parse and consumed by
JSON.stringify. Object fields keep their insertion order. -/
inductive Json where
  | null : Json
  | bool (b : Bool) : Json
  | num (n : Int) : Json
  | str (s : String) : Json
  | arr (xs : List Json) : Json
  | obj (fields : List (String × Json)) : Json
deriving Repr

/-- JSON string escaping for one character, as JSON.stringify performs it. -/
def escapeChar (c : Char) : List Char :=
  if c = '"' then ['\\', '"']
  else if c = '\\' then ['\\', '\\']
  else if c = '\n' then ['\\', 'n']
  else if c = '\t' then ['\\', 't']
  else if c = '\r' then ['\\', 'r']
  else [c]

/-- JSON string escaping, as JSON.stringify performs it. -/
def escapeString (s : String) : String :=
  String.mk ((s.data.map escapeChar).flatten)

mutual

/-- Serialize a JSON document to a string, modelling JSON.stringify:
object fields are rendered in their list order. -/
def Json.render : Json → String
  | .null => "null"
  | .bool true => "true"
  | .bool false => "false"
  | .num n => toString n
  | .str s => "\"" ++ escapeString s ++ "\""
  | .arr xs => "[" ++ String.intercalate (",") (Json.renderList xs) ++ "]"
  | .obj fs => "\x7b" ++ String.intercalate (",") (Json.renderFields fs) ++ "\x7d"

/-- Render each element of a JSON array. -/
def Json.renderList : List Json → List String
  | [] => []
  | x :: xs => x.render :: Json.renderList xs

/-- Render each field of a JSON object as a quoted key and its value. -/
def Json.renderFields : List (String × Json) → List String
  | [] => []
  | (k, v) :: fs => ("\"" ++ escapeString k ++ "\":" ++ v.render) :: Json.renderFields fs

end

/-- JavaScript truthiness of a parsed JSON value: null, false, 0 and the
empty string are falsy; every object and array is truthy. -/
def jsTruthy : Json → Bool
  | .null => false
  | .bool b => b
  | .num n => n != 0
  | .str s => s != ""
  | .arr _ => true
  | .obj _ => true

/-- Whitespace skipping for the JSON parser. -/
def skipWs (cs : List Char) : List Char :=
  cs.dropWhile (fun c => c == ' ' || c == '\t' || c == '\n' || c == '\r')

/-- Match an expected literal character sequence, returning the rest. -/
def dropLit : List Char → List Char → Option (List Char)
  | [], cs => some cs
  | e :: es, c :: cs => if c = e then dropLit es cs else none
  | _ :: _, [] => none

/-- Parse the body of a JSON string after the opening quote, returning the
decoded characters and the input after the closing quote. -/
def parseStringRest : List Char → Option (List Char × List Char)
  | [] => none
  | '"' :: rest => some ([], rest)
  | '\\' :: e :: rest =>
    match
      (match e with
        | '"' => some '"'
        | '\\' => some '\\'
        | '/' => some '/'
        | 't' => some '\t'
        | 'n' => some '\n'
        | 'r' => some '\r'
        | _ => none) with
    | none => none
    | some c =>
      match parseStringRest rest with
      | none => none
      | some (body, rest2) => some (c :: body, rest2)
  | c :: rest =>
    match parseStringRest rest with
    | none => none
    | some (body, rest2) => some (c :: body, rest2)

/-- Parse a run of decimal digits into a natural number. -/
def parseDigits : List Char → Option (Nat × List Char)
  | c :: cs =>
    if c.isDigit then
      let rec go (acc : Nat) : List Char → Nat × List Char
        | d :: ds => if d.isDigit then go (acc * 10 + (d.toNat - 48)) ds else (acc, d :: ds)
        | [] => (acc, [])
      some (go (c.toNat - 48) cs)
    else none
  | [] => none

mutual

/-- Recursive-descent JSON value parser, fuelled for termination. Numbers
are modelled as integers only. -/
def parseValue (fuel : Nat) (cs : List Char) : Option (Json × List Char) :=
  match fuel with
  | 0 => none
  | fuel + 1 =>
    match skipWs cs with
    | [] => none
    | c :: rest =>
      if c = 'n' then
        match dropLit ['u', 'l', 'l'] rest with
        | some rest2 => some (.null, rest2)
        | none => none
      else if c = 't' then
        match dropLit ['r', 'u', 'e'] rest with
        | some rest2 => some (.bool true, rest2)
        | none => none
      else if c = 'f' then
        match dropLit ['a', 'l', 's', 'e'] rest with
        | some rest2 => some (.bool false, rest2)
        | none => none
      else if c = '"' then
        match parseStringRest rest with
        | some (body, rest2) => some (.str (String.mk body), rest2)
        | none => none
      else if c = '[' then
        match skipWs rest with
        | ']' :: rest2 => some (.arr [], rest2)
        | rest2 =>
          match parseElems fuel rest2 with
          | some (xs, rest3) => some (.arr xs, rest3)
          | none => none
      else if c = '\x7b' then
        match skipWs rest with
        | '\x7d' :: rest2 => some (.obj [], rest2)
        | rest2 =>
          match parseMembers fuel rest2 with
          | some (fs, rest3) => some (.obj fs, rest3)
          | none => none
      else if c = '-' then
        match parseDigits rest with
        | some (n, rest2) => some (.num (-(n : Int)), rest2)
        | none => none
      else if c.isDigit then
        match parseDigits (c :: rest) with
        | some (n, rest2) => some (.num (n : Int), rest2)
        | none => none
      else none

/-- Parse the comma-separated elements of a JSON array up to the closing
bracket. -/
def parseElems (fuel : Nat) (cs : List Char) : Option (List Json × List Char) :=
  match fuel with
  | 0 => none
  | fuel + 1 =>
    match parseValue fuel cs with
    | none => none
    | some (x, rest) =>
      match skipWs rest with
      | ',' :: rest2 =>
        match parseElems fuel rest2 with
        | some (xs, rest3) => some (x :: xs, rest3)
        | none => none
      | ']' :: rest2 => some ([x], rest2)
      | _ => none

/-- Parse the comma-separated members of a JSON object up to the closing
brace. -/
def parseMembers (fuel : Nat) (cs : List Char) : Option (List (String × Json) × List Char) :=
  match fuel with
  | 0 => none
  | fuel + 1 =>
    match skipWs cs with
    | '"' :: rest =>
      match parseStringRest rest with
      | none => none
      | some (key, rest2) =>
        match skipWs rest2 with
        | ':' :: rest3 =>
          match parseValue fuel rest3 with
          | none => none
          | some (v, rest4) =>
            match skipWs rest4 with
            | ',' :: rest5 =>
              match parseMembers fuel rest5 with
              | some (fs, rest6) => some ((String.mk key, v) :: fs, rest6)
              | none => none
            | '\x7d' :: rest5 => some ([(String.mk key, v)], rest5)
            | _ => none
        | _ => none
    | _ => none

end

/-- Model of JSON.parse: succeeds on a complete well-formed document,
fails (the JavaScript function throws) otherwise. -/
def jsonParse (s : String) : Except Unit Json :=
  match parseValue (s.data.length * 2 + 2) s.data with
  | some (j, rest) => if skipWs rest = [] then .ok j else .error ()
  | none => .error ()

/-- ASCII uppercase of one character (the range JavaScript's
toUpperCase touches for HTTP methods and header names). -/
def upChar (c : Char) : Char :=
  if 'a' ≤ c ∧ c ≤ 'z' then Char.ofNat (c.toNat - 32) else c

/-- ASCII uppercase of a string. -/
def upStr (s : String) : String := String.mk (s.data.map upChar)

/-- ASCII lowercase of one character. -/
def downChar (c : Char) : Char :=
  if 'A' ≤ c ∧ c ≤ 'Z' then Char.ofNat (c.toNat + 32) else c

/-- ASCII lowercase of a string. -/
def downStr (s : String) : String := String.mk (s.data.map downChar)

/-- From src/utils.ts: check whether an HTTP method should use idempotency.
An absent (or empty, hence falsy) method yields false; both sides are
compared after uppercasing. -/
def shouldUseIdempotency (method : Option String) (configuredMethods : List String) : Bool :=
  match method with
  | none => false
  | some m =>
    if m = "" then false
    else (configuredMethods.map upStr).contains (upStr m)

/-- From src/utils.ts: deserialize a cached response; JSON.parse failures
are caught and surfaced as null (`none`). -/
def deserializeResponse (serialized : String) : Option Json :=
  match jsonParse serialized with
  | .ok v => some v
  | .error _ => none

/-- Key ordering on object fields, used to canonicalize objects. -/
def fieldLe (a b : String × Json) : Prop := a.1 ≤ b.1

instance : DecidableRel fieldLe :=
  fun a b => inferInstanceAs (Decidable (a.1 ≤ b.1))

instance : IsTotal (String × Json) fieldLe :=
  ⟨fun a b => le_total a.1 b.1⟩

instance : IsTrans (String × Json) fieldLe :=
  ⟨fun _ _ _ h1 h2 => le_trans h1 h2⟩

instance : IsAntisymm (String × Json) (fun a b : String × Json => a.1 < b.1) :=
  ⟨fun _ _ h1 h2 => absurd (h1.trans h2) (lt_irrefl _)⟩

/-- Sort object fields by key. -/
def sortFields (fs : List (String × Json)) : List (String × Json) :=
  fs.insertionSort fieldLe

mutual

/-- Modelled from the spec: the key builder's body canonicalization
(src/keyBuilder.ts is absent from the sources) — "if the body is a
structured value, canonicalize by recursively sorting object keys before
serialization so that key order never affects the fingerprint". -/
def Json.canonical : Json → Json
  | .null => .null
  | .bool b => .bool b
  | .num n => .num n
  | .str s => .str s
  | .arr xs => .arr (Json.canonicalList xs)
  | .obj fs => .obj (sortFields (Json.canonicalFields fs))

/-- Canonicalize each element of a JSON array. -/
def Json.canonicalList : List Json → List Json
  | [] => []
  | x :: xs => x.canonical :: Json.canonicalList xs

/-- Canonicalize the value of each object field. -/
def Json.canonicalFields : List (String × Json) → List (String × Json)
  | [] => []
  | (k, v) :: fs => (k, v.canonical) :: Json.canonicalFields fs

end

/-- Truncate to a 32-bit word. -/
def w32 (n : Nat) : Nat := n % 4294967296

/-- 32-bit right rotation. -/
def rotr (n k : Nat) : Nat := w32 ((n >>> k) ||| (n <<< (32 - k)))

/-- SHA-256 Σ0. -/
def bigSigma0 (x : Nat) : Nat := (rotr x 2) ^^^ (rotr x 13) ^^^ (rotr x 22)

/-- SHA-256 Σ1. -/
def bigSigma1 (x : Nat) : Nat := (rotr x 6) ^^^ (rotr x 11) ^^^ (rotr x 25)

/-- SHA-256 σ0. -/
def smallSigma0 (x : Nat) : Nat := (rotr x 7) ^^^ (rotr x 18) ^^^ (x >>> 3)

/-- SHA-256 σ1. -/
def smallSigma1 (x : Nat) : Nat := (rotr x 17) ^^^ (rotr x 19) ^^^ (x >>> 10)

/-- SHA-256 choice function. -/
def chF (x y z : Nat) : Nat := (x &&& y) ^^^ ((x ^^^ 4294967295) &&& z)

/-- SHA-256 majority function. -/
def majF (x y z : Nat) : Nat := (x &&& y) ^^^ (x &&& z) ^^^ (y &&& z)

/-- The 64 SHA-256 round constants. -/
def sha256K : List Nat :=
  [1116352408, 1899447441, 3049323471, 3921009573,
   961987163, 1508970993, 2453635748, 2870763221,
   3624381080, 310598401, 607225278, 1426881987,
   1925078388, 2162078206, 2614888103, 3248222580,
   3835390401, 4022224774, 264347078, 604807628,
   770255983, 1249150122, 1555081692, 1996064986,
   2554220882, 2821834349, 2952996808, 3210313671,
   3336571891, 3584528711, 113926993, 338241895,
   666307205, 773529912, 1294757372, 1396182291,
   1695183700, 1986661051, 2177026350, 2456956037,
   2730485921, 2820302411, 3259730800, 3345764771,
   3516065817, 3600352804, 4094571909, 275423344,
   430227734, 506948616, 659060556, 883997877,
   958139571, 1322822218, 1537002063, 1747873779,
   1955562222, 2024104815, 2227730452, 2361852424,
   2428436474, 2756734187, 3204031479, 3329325298]

/-- SHA-256 working state: eight 32-bit words. -/
structure H8 where
  a : Nat
  b : Nat
  c : Nat
  d : Nat
  e : Nat
  f : Nat
  g : Nat
  h : Nat

/-- SHA-256 initial hash value. -/
def sha256Init : H8 :=
  ⟨1779033703, 3144134277, 1013904242, 2773480762,
   1359893119, 2600822924, 528734635, 1541459225⟩

/-- UTF-8 encoding of one character. -/
def utf8EncodeChar (c : Char) : List Nat :=
  let n := c.toNat
  if n < 128 then [n]
  else if n < 2048 then [192 + n / 64, 128 + n % 64]
  else if n < 65536 then [224 + n / 4096, 128 + (n / 64) % 64, 128 + n % 64]
  else [240 + n / 262144, 128 + (n / 4096) % 64, 128 + (n / 64) % 64, 128 + n % 64]

/-- UTF-8 bytes of a string. -/
def strBytes (s : String) : List Nat :=
  (s.data.map utf8EncodeChar).flatten

/-- SHA-256 message padding: append 0x80, zeros and the 64-bit big-endian
bit length, reaching a multiple of 64 bytes. -/
def padBytes (msg : List Nat) : List Nat :=
  let bitLen := msg.length * 8
  let zeros := (55 + 64 - msg.length % 64) % 64
  msg ++ [128] ++ List.replicate zeros 0
      ++ (List.range 8).map (fun i => (bitLen >>> ((7 - i) * 8)) % 256)

/-- Split into 64-byte chunks (fuelled). -/
def chunksGo : Nat → List Nat → List (List Nat)
  | 0, _ => []
  | _, [] => []
  | fuel + 1, l => l.take 64 :: chunksGo fuel (l.drop 64)

/-- Split a byte list into 64-byte chunks. -/
def chunks64 (l : List Nat) : List (List Nat) := chunksGo l.length l

/-- The sixteen big-endian 32-bit words of a 64-byte block. -/
def blockWords (b : List Nat) : List Nat :=
  (List.range 16).map (fun i =>
    b.getD (4 * i) 0 * 16777216 + b.getD (4 * i + 1) 0 * 65536
      + b.getD (4 * i + 2) 0 * 256 + b.getD (4 * i + 3) 0)

/-- Extend sixteen message-schedule words to sixty-four. -/
def extendWords (w : List Nat) : List Nat :=
  (List.range 48).foldl
    (fun w _ =>
      w ++ [w32 (smallSigma1 (w.getD (w.length - 2) 0) + w.getD (w.length - 7) 0
        + smallSigma0 (w.getD (w.length - 15) 0) + w.getD (w.length - 16) 0)])
    w

/-- One SHA-256 compression round. -/
def sha256Round (st : H8) (kw : Nat × Nat) : H8 :=
  let t1 := w32 (st.h + bigSigma1 st.e + chF st.e st.f st.g + kw.1 + kw.2)
  let t2 := w32 (bigSigma0 st.a + majF st.a st.b st.c)
  ⟨w32 (t1 + t2), st.a, st.b, st.c, w32 (st.d + t1), st.e, st.f, st.g⟩

/-- SHA-256 compression of one 64-byte block. -/
def compressBlock (st : H8) (block : List Nat) : H8 :=
  let ws := extendWords (blockWords block)
  let fin := (sha256K.zip ws).foldl sha256Round st
  ⟨w32 (st.a + fin.a), w32 (st.b + fin.b), w32 (st.c + fin.c), w32 (st.d + fin.d),
   w32 (st.e + fin.e), w32 (st.f + fin.f), w32 (st.g + fin.g), w32 (st.h + fin.h)⟩

/-- SHA-256 over a byte list, producing the eight final hash words. -/
def sha256Words (msg : List Nat) : H8 :=
  (chunks64 (padBytes msg)).foldl compressBlock sha256Init

/-- The sixteen lowercase hexadecimal digit characters. -/
def hexDigitsList : List Char := ("0123456789abcdef").data

/-- The lowercase hexadecimal digit for a value below sixteen. -/
def hexDigit (n : Nat) : Char := hexDigitsList.getD n '0'

/-- The eight lowercase hex digits of a 32-bit word, most significant first. -/
def wordHexChars (w : Nat) : List Char :=
  (List.range 8).map (fun i => hexDigit ((w >>> ((7 - i) * 4)) % 16))

/-- The eight words of a SHA-256 state as a list. -/
def H8.words (st : H8) : List Nat := [st.a, st.b, st.c, st.d, st.e, st.f, st.g, st.h]

/-- Lowercase hexadecimal SHA-256 digest of the UTF-8 bytes of a string. -/
def sha256Hex (s : String) : String :=
  String.mk (((sha256Words (strBytes s)).words.map wordHexChars).flatten)

/-- A request body: either an already-serialized string or a structured
JSON value. -/
inductive Body where
  | raw (s : String) : Body
  | json (j : Json) : Body

/-- The request descriptor facets read by the key builder and the
coordinator, mirroring the AxiosRequestConfig fields the sources use. -/
structure RequestConfig where
  method : Option String
  url : Option String
  params : List (String × String)
  headers : List (String × String)
  data : Option Body
  skipIdempotency : Bool

/-- The query-inclusion policy: a boolean for none/all, or an explicit
list of parameter names, mirroring `query?: boolean | string[]`. -/
inductive QueryInc where
  | flag (b : Bool) : QueryInc
  | names (ns : List String) : QueryInc

/-- Which request facets feed the idempotency key, from src/types.ts
(IdempotencyKeyInclude). -/
structure IncludePolicy where
  path : Bool
  query : QueryInc
  headers : List String
  body : Bool

/-- The default inclusion policy from the plugin's DEFAULT_OPTIONS. -/
def IncludePolicy.default : IncludePolicy := ⟨true, .flag true, [], true⟩

/-- Drop a URL's query component. -/
def stripQuery (s : String) : String :=
  String.mk (s.data.takeWhile (fun c => c != '?'))

/-- Modelled from the spec: extract the path component only, stripping
scheme, host and query, from the key builder absent in src/keyBuilder.ts. -/
def extractPath (url : String) : String :=
  match url.splitOn ("://") with
  | [] => ""
  | [u] => stripQuery u
  | _ :: rest =>
    let hp := String.intercalate ("://") rest
    let afterHost := String.mk (hp.data.dropWhile (fun c => c != '/'))
    if afterHost = "" then "/" else stripQuery afterHost

/-- The query parameters embedded in a URL, as name-value pairs. -/
def queryOfUrl (url : String) : List (String × String) :=
  match url.splitOn ("?") with
  | [] => []
  | [_] => []
  | _ :: rest =>
    let q := String.intercalate ("?") rest
    (q.splitOn ("&")).filterMap (fun kv =>
      if kv = "" then none
      else
        match kv.splitOn ("=") with
        | [] => none
        | [k] => some (k, "")
        | k :: vs => some (k, String.intercalate ("=") vs))

/-- Modelled from the spec: merge URL-embedded query parameters with the
separately supplied parameter map, the separate map winning on collision. -/
def mergeParams (urlQ ps : List (String × String)) : List (String × String) :=
  urlQ.filter (fun p => !(ps.any (fun q => q.1 == p.1))) ++ ps

/-- Modelled from the spec: the query facet under the policy — omitted,
all merged parameters, or only the explicitly named ones. -/
def selectQuery (inc : QueryInc) (merged : List (String × String)) :
    Option (List (String × String)) :=
  match inc with
  | .flag false => none
  | .flag true => some merged
  | .names ns => some (merged.filter (fun p => ns.any (fun n => n == p.1)))

/-- Modelled from the spec: extract the policy-named headers
case-insensitively. -/
def selectHeaders (names : List String) (hs : List (String × String)) :
    List (String × String) :=
  names.filterMap (fun n =>
    match hs.find? (fun p => downStr p.1 == downStr n) with
    | some p => some (downStr n, p.2)
    | none => none)

/-- Modelled from the spec: the body facet — a fixed sentinel when absent,
the string as-is when already serialized, and the canonicalized (recursively
key-sorted) serialization when structured. -/
def bodyFacet : Option Body → String
  | none => "__ABSENT__"
  | some (.raw s) => s
  | some (.json j) => j.canonical.render

/-- An association list as a key-sorted JSON object, for deterministic
serialization. -/
def assocToSortedJson (l : List (String × String)) : Json :=
  .obj (sortFields (l.map (fun p => (p.1, Json.str p.2))))

/-- Modelled from the spec: normalize the method to uppercase, defaulting
to GET when absent (or empty, hence falsy). -/
def normalizeMethod (m : Option String) : String :=
  match m with
  | none => "GET"
  | some s => if s = "" then "GET" else upStr s

/-- Modelled from the spec: the ordered tuple of selected facets — method
always, then path, query, headers and body as the policy selects them. -/
def selectedFacets (cfg : RequestConfig) (inc : IncludePolicy) : List (String × Json) :=
  [("method", Json.str (normalizeMethod cfg.method))]
    ++ (if inc.path then [("path", Json.str (extractPath (cfg.url.getD "")))] else [])
    ++ (match selectQuery inc.query
          (mergeParams (queryOfUrl (cfg.url.getD "")) cfg.params) with
        | some q => [("query", assocToSortedJson q)]
        | none => [])
    ++ (if inc.headers.isEmpty then []
        else [("headers", assocToSortedJson (selectHeaders inc.headers cfg.headers))])
    ++ (if inc.body then [("body", Json.str (bodyFacet cfg.data))] else [])

/-- Modelled from the spec: deterministic (sorted-key JSON) serialization
of the selected facets, the digest input. -/
def serializeFacets (cfg : RequestConfig) (inc : IncludePolicy) : String :=
  (Json.obj (sortFields (selectedFacets cfg inc))).render

/-- The fixed namespace tag in front of every idempotency key. The
repository's own tests (key-format assertions on buildIdempotencyKey)
require this exact tag. -/
def keyNamespaceTag : String := "axios-idempotent:"

/-- Modelled from the spec: `buildIdempotencyKey` from the absent
src/keyBuilder.ts — the namespace tag followed by the lowercase hex SHA-256
digest of the deterministically serialized selected facets. The tag is the
one the repository's tests assert. -/
def buildIdempotencyKey (cfg : RequestConfig) (inc : IncludePolicy) : String :=
  keyNamespaceTag ++ sha256Hex (serializeFacets cfg inc)

/-- Look up a key in an association list (the Map.get of the adapters). -/
def alistGet {α : Type} (k : String) (l : List (String × α)) : Option α :=
  match l.find? (fun p => p.1 == k) with
  | some p => some p.2
  | none => none

/-- Remove a key from an association list (the Map.delete of the adapters). -/
def alistErase {α : Type} (k : String) (l : List (String × α)) : List (String × α) :=
  l.filter (fun p => p.1 != k)

/-- Bind a key in an association list (the Map.set of the adapters). -/
def alistSet {α : Type} (k : String) (v : α) (l : List (String × α)) : List (String × α) :=
  (k, v) :: alistErase k l

/-- The MemoryAdapter's state from src/storage/memory.ts — the cache map
(value and absolute expiry in milliseconds), the locks map (absolute expiry
in milliseconds) and the current wall-clock time in milliseconds. -/
structure MemState where
  cache : List (String × (String × Nat))
  locks : List (String × Nat)
  now : Nat
deriving DecidableEq

namespace MemoryAdapter

/-- The lock key derived from a cache key, from src/storage/memory.ts:
the key with ":lock" appended. -/
def lockKey (key : String) : String := key ++ ":lock"

/-- MemoryAdapter.get: lazy expiry check on every read — an entry read
strictly after its expiry is deleted and reported absent. -/
def get (key : String) (s : MemState) : Option String × MemState :=
  match alistGet key s.cache with
  | none => (none, s)
  | some (v, expiry) =>
    if s.now > expiry then (none, { s with cache := alistErase key s.cache })
    else (some v, s)

/-- MemoryAdapter.set: bind the key to the value with absolute expiry
now + ttl seconds. The scheduled purge the source also installs is
modelled as the separate MemOp.purgeCache step. -/
def set (key value : String) (ttl : Nat) (s : MemState) : MemState :=
  { s with cache := alistSet key (value, s.now + ttl * 1000) s.cache }

/-- MemoryAdapter.acquireLock: refuse when a lock entry exists, is truthy
(a JavaScript number, so nonzero) and unexpired; otherwise bind the lock
key to the new expiry and grant. -/
def acquireLock (key : String) (ttl : Nat) (s : MemState) : Bool × MemState :=
  match alistGet (lockKey key) s.locks with
  | some expiry =>
    if expiry ≠ 0 ∧ s.now < expiry then (false, s)
    else (true, { s with locks := alistSet (lockKey key) (s.now + ttl * 1000) s.locks })
  | none =>
    (true, { s with locks := alistSet (lockKey key) (s.now + ttl * 1000) s.locks })

/-- MemoryAdapter.releaseLock: delete the lock key. -/
def releaseLock (key : String) (s : MemState) : MemState :=
  { s with locks := alistErase (lockKey key) s.locks }

/-- The scheduled cache purge from MemoryAdapter.set's setTimeout: delete
the entry only if it exists and has expired. -/
def purgeCache (key : String) (s : MemState) : MemState :=
  match alistGet key s.cache with
  | some (_, expiry) =>
    if s.now > expiry then { s with cache := alistErase key s.cache } else s
  | none => s

/-- The scheduled lock purge from MemoryAdapter.acquireLock's setTimeout:
delete the lock only if it exists and has expired. -/
def purgeLock (key : String) (s : MemState) : MemState :=
  match alistGet (lockKey key) s.locks with
  | some expiry =>
    if s.now > expiry then { s with locks := alistErase (lockKey key) s.locks } else s
  | none => s

end MemoryAdapter

/-- One observable step against the in-memory adapter: an adapter call,
a scheduled purge firing, or the wall clock advancing. -/
inductive MemOp where
  | get (k : String) : MemOp
  | set (k v : String) (ttl : Nat) : MemOp
  | acquire (k : String) (ttl : Nat) : MemOp
  | release (k : String) : MemOp
  | purgeCache (k : String) : MemOp
  | purgeLock (k : String) : MemOp
  | tick (ms : Nat) : MemOp
deriving DecidableEq

/-- Apply one step to the in-memory adapter's state, discarding outputs. -/
def MemOp.apply : MemOp → MemState → MemState
  | .get k, s => (MemoryAdapter.get k s).2
  | .set k v ttl, s => MemoryAdapter.set k v ttl s
  | .acquire k ttl, s => (MemoryAdapter.acquireLock k ttl s).2
  | .release k, s => MemoryAdapter.releaseLock k s
  | .purgeCache k, s => MemoryAdapter.purgeCache k s
  | .purgeLock k, s => MemoryAdapter.purgeLock k s
  | .tick ms, s => { s with now := s.now + ms }

/-- Run a list of steps from a state. -/
def runOps (ops : List MemOp) (s : MemState) : MemState :=
  ops.foldl (fun s op => op.apply s) s

/-- An abstract networked key-value client with the four operations
RedisAdapter uses; every operation may fail with a transport error. -/
structure RedisClient (ρ : Type) where
  get : String → ρ → Except Unit (Option String) × ρ
  setex : String → Nat → String → ρ → Except Unit Unit × ρ
  setPxNx : String → String → Nat → ρ → Except Unit (Option String) × ρ
  del : String → ρ → Except Unit Unit × ρ

namespace RedisAdapter

/-- The lock key derived from a cache key, from src/storage/redis.ts:
the key with ":lock" appended. -/
def lockKey (key : String) : String := key ++ ":lock"

/-- RedisAdapter.get: transport failures are logged and degrade to null. -/
def get {ρ : Type} (c : RedisClient ρ) (key : String) (r : ρ) : Option String × ρ :=
  match c.get key r with
  | (.ok v, r2) => (v, r2)
  | (.error _, r2) => (none, r2)

/-- RedisAdapter.set: SETEX; a transport failure is logged and rethrown. -/
def set {ρ : Type} (c : RedisClient ρ) (key value : String) (ttl : Nat) (r : ρ) :
    Except Unit Unit × ρ :=
  c.setex key ttl value r

/-- RedisAdapter.acquireLock: SET lockKey "1" PX ttl*1000 NX; granted iff
the reply is OK; transport failures degrade to not-granted. -/
def acquireLock {ρ : Type} (c : RedisClient ρ) (key : String) (ttl : Nat) (r : ρ) :
    Bool × ρ :=
  match c.setPxNx (lockKey key) ("1") (ttl * 1000) r with
  | (.ok reply, r2) => (reply == some ("OK"), r2)
  | (.error _, r2) => (false, r2)

/-- RedisAdapter.releaseLock: DEL lockKey, best effort — transport
failures are swallowed. -/
def releaseLock {ρ : Type} (c : RedisClient ρ) (key : String) (r : ρ) : ρ :=
  match c.del (lockKey key) r with
  | (_, r2) => r2

end RedisAdapter

/-- The storage contract the coordinator is written against (the
StorageAdapter interface from src/types.ts), over an abstract state:
get never throws, set may throw, acquireLock never throws, releaseLock
never throws; tick models wall-clock time passing during the retry delay. -/
structure StorageOps (σ : Type) where
  get : String → σ → Option String × σ
  set : String → String → Nat → σ → Except Unit Unit × σ
  acquireLock : String → Nat → σ → Bool × σ
  releaseLock : String → σ → σ
  tick : Nat → σ → σ

/-- The in-memory backend as a StorageOps instance; its set cannot fail. -/
def MemStorage : StorageOps MemState where
  get := MemoryAdapter.get
  set := fun k v ttl s => (.ok (), MemoryAdapter.set k v ttl s)
  acquireLock := MemoryAdapter.acquireLock
  releaseLock := MemoryAdapter.releaseLock
  tick := fun ms s => { s with now := s.now + ms }

/-- An Axios response as the response interceptor sees it. -/
structure AxResponse where
  data : Json
  status : Int
  statusText : String
  headers : List (String × String)
  config : RequestConfig

/-- The value the caller's promise resolves with: a live response from the
dispatched request, or the parsed cached document. -/
inductive RespValue where
  | live (r : AxResponse) : RespValue
  | cached (j : Json) : RespValue

/-- Header pairs as a JSON object. -/
def headersJson (hs : List (String × String)) : Json :=
  .obj (hs.map (fun p => (p.1, Json.str p.2)))

/-- From src/utils.ts serializeResponse: JSON.stringify of the cached
shape — data, status, statusText, headers and the config's url, method,
headers and params. JSON.stringify omits fields whose value is undefined. -/
def serializeResponse (r : AxResponse) : String :=
  (Json.obj
    [("data", r.data),
     ("status", .num r.status),
     ("statusText", .str r.statusText),
     ("headers", headersJson r.headers),
     ("config", .obj
       ((match r.config.url with
         | some u => [("url", Json.str u)]
         | none => [])
        ++ (match r.config.method with
            | some m => [("method", Json.str m)]
            | none => [])
        ++ [("headers", headersJson r.config.headers),
            ("params", headersJson r.config.params)]))]).render

/-- The request interceptor's cached-hit test: the stored string must be
truthy (nonempty), deserialize successfully, and the parsed value must be
truthy. -/
def checkCached (c : Option String) : Option Json :=
  match c with
  | none => none
  | some d =>
    if d = "" then none
    else
      match deserializeResponse d with
      | none => none
      | some j => if jsTruthy j then some j else none

/-- The plugin configuration fields the coordinator reads, merged with
DEFAULT_OPTIONS from src/plugin.ts. -/
structure CoordConfig where
  methods : List String
  ttl : Nat
  maxLockRetries : Nat
  lockRetryDelay : Nat

/-- The DEFAULT_OPTIONS values from src/plugin.ts. -/
def CoordConfig.default : CoordConfig :=
  ⟨["POST", "PUT", "PATCH"], 300, 10, 100⟩

/-- What the lock retry loop produced: whether the lock was acquired, a
cache hit observed while polling, the resulting state and the number of
acquisition attempts and polling reads. -/
structure LoopRes (σ : Type) where
  acquired : Bool
  cachedHit : Option Json
  state : σ
  attempts : Nat
  pollReads : Nat

/-- The while-loop from the request interceptor (src/plugin.ts lines
112-136), with fuel maxLockRetries - retries: attempt the lock; on failure
wait one retry delay, then re-read the cache and stop on a (truthy,
parseable) hit, else retry. -/
def lockLoop {σ : Type} (ops : StorageOps σ) (cc : CoordConfig) (key : String) :
    Nat → σ → LoopRes σ
  | 0, s => ⟨false, none, s, 0, 0⟩
  | fuel + 1, s =>
    match ops.acquireLock key cc.ttl s with
    | (true, s1) => ⟨true, none, s1, 1, 0⟩
    | (false, s1) =>
      let s2 := ops.tick cc.lockRetryDelay s1
      match ops.get key s2 with
      | (c, s3) =>
        match checkCached c with
        | some j => ⟨false, some j, s3, 1, 1⟩
        | none =>
          let r := lockLoop ops cc key fuel s3
          ⟨r.acquired, r.cachedHit, r.state, r.attempts + 1, r.pollReads + 1⟩

/-- The observable outcome of one wrapped Axios call: what the caller's
promise settles with, the final storage state, and counters for the
underlying dispatch, storage interactions and logging. -/
structure ExecResult (σ : Type) where
  outcome : Except String RespValue
  state : σ
  workInvocations : Nat
  cacheReads : Nat
  lockAttempts : Nat
  setCalls : Nat
  setErrorsLogged : Nat
  releaseCalls : List String
  warnings : Nat

/-- The method string the request interceptor works with:
`requestConfig.method || 'GET'` — GET when the field is absent or empty
(falsy). -/
def effectiveMethod (cfg : RequestConfig) : String :=
  match cfg.method with
  | none => "GET"
  | some m => if m = "" then "GET" else m

/-- One call through the wrapped Axios instance from
src/plugin.ts: the request interceptor (bypass check, cache check, lock
retry loop), the dispatch of the underlying work, and the response
interceptors (cache population and unconditional lock release on success;
cached-marker resolution or lock release on error). `work` is the outcome
the underlying dispatch would produce. -/
def execute {σ : Type} (ops : StorageOps σ) (cc : CoordConfig) (inc : IncludePolicy)
    (cfg : RequestConfig) (work : Except String AxResponse) (s : σ) : ExecResult σ :=
  if !(shouldUseIdempotency (some (effectiveMethod cfg)) cc.methods) || cfg.skipIdempotency then
    match work with
    | .ok r =>
      ⟨.ok (.live r), s, 1, 0, 0, 0, 0, [], 0⟩
    | .error e =>
      ⟨.error e, s, 1, 0, 0, 0, 0, [], 0⟩
  else
    let key := buildIdempotencyKey cfg inc
    match ops.get key s with
    | (c0, s0) =>
      match checkCached c0 with
      | some j =>
        ⟨.ok (.cached j), s0, 0, 1, 0, 0, 0, [], 0⟩
      | none =>
        let L := lockLoop ops cc key cc.maxLockRetries s0
        match L.cachedHit with
        | some j =>
          ⟨.ok (.cached j), L.state, 0, 1 + L.pollReads, L.attempts, 0, 0, [], 0⟩
        | none =>
          let warn := if L.acquired then 0 else 1
          match work with
          | .ok r =>
            match ops.set key (serializeResponse r) cc.ttl L.state with
            | (sr, s2) =>
              let s3 := ops.releaseLock key s2
              ⟨.ok (.live r), s3, 1, 1 + L.pollReads, L.attempts,
                1, (match sr with | .ok _ => 0 | .error _ => 1), [key], warn⟩
          | .error e =>
            let s2 := ops.releaseLock key L.state
            ⟨.error e, s2, 1, 1 + L.pollReads, L.attempts, 0, 0, [key], warn⟩

/-- A unit-state storage whose cache is always empty and whose lock is
always free: the simplest uncontended backend. -/
def FreeOps : StorageOps Unit where
  get := fun _ s => (none, s)
  set := fun _ _ _ s => (.ok (), s)
  acquireLock := fun _ _ s => (true, s)
  releaseLock := fun _ s => s
  tick := fun _ s => s

/-- A unit-state storage whose lock is always held elsewhere and whose
cache never fills: permanent contention. -/
def ContendedOps : StorageOps Unit where
  get := fun _ s => (none, s)
  set := fun _ _ _ s => (.ok (), s)
  acquireLock := fun _ _ s => (false, s)
  releaseLock := fun _ s => s
  tick := fun _ s => s

/-- A unit-state storage holding one well-formed cached document under
every key. -/
def HitOps : StorageOps Unit where
  get := fun _ s => (some ("\x7b\"id\":1\x7d"), s)
  set := fun _ _ _ s => (.ok (), s)
  acquireLock := fun _ _ s => (true, s)
  releaseLock := fun _ s => s
  tick := fun _ s => s

/-- A unit-state storage holding the string "0" under every key: it
deserializes successfully but is JavaScript-falsy. -/
def ZeroCacheOps : StorageOps Unit where
  get := fun _ s => (some ("0"), s)
  set := fun _ _ _ s => (.ok (), s)
  acquireLock := fun _ _ s => (true, s)
  releaseLock := fun _ s => s
  tick := fun _ s => s

/-- A unit-state storage holding a non-JSON string under every key. -/
def CorruptCacheOps : StorageOps Unit where
  get := fun _ s => (some ("not valid json \x7b"), s)
  set := fun _ _ _ s => (.ok (), s)
  acquireLock := fun _ _ s => (true, s)
  releaseLock := fun _ s => s
  tick := fun _ s => s

/-- A unit-state storage with empty cache and free lock whose every cache
write fails with a transport error. -/
def FailingSetOps : StorageOps Unit where
  get := fun _ s => (none, s)
  set := fun _ _ _ s => (.error (), s)
  acquireLock := fun _ _ s => (true, s)
  releaseLock := fun _ s => s
  tick := fun _ s => s

/-- A plain POST request to /api/users. -/
def postUsersCfg : RequestConfig :=
  ⟨some ("POST"), some ("/api/users"), [], [], none, false⟩

/-- The same POST request with the per-request skip flag raised. -/
def skipPostCfg : RequestConfig :=
  ⟨some ("POST"), some ("/api/users"), [], [], none, true⟩

/-- A GET request, outside the default idempotent-method set. -/
def getUsersCfg : RequestConfig :=
  ⟨some ("GET"), some ("/api/users"), [], [], none, false⟩

/-- A sample successful response for the requests above. -/
def sampleResp : AxResponse :=
  ⟨.obj [("id", .num 1)], 200, "OK", [], postUsersCfg⟩

/-- Unfold an association-list lookup one entry at a time. -/
theorem alistGet_cons {α : Type} (p : String × α) (k : String) (t : List (String × α)) :
    alistGet k (p :: t) = if p.1 = k then some p.2 else alistGet k t := by
  by_cases h : p.1 = k
  · simp [alistGet, List.find?, h]
  · have hb : (p.1 == k) = false := by simpa using h
    simp [alistGet, List.find?, hb, h]

/-- Unfold an association-list erase one entry at a time. -/
theorem alistErase_cons {α : Type} (p : String × α) (k : String) (t : List (String × α)) :
    alistErase k (p :: t) = if p.1 = k then alistErase k t else p :: alistErase k t := by
  by_cases h : p.1 = k <;> simp [alistErase, List.filter_cons, h]

/-- Looking up the key just bound by alistSet yields the bound value. -/
theorem alistGet_set_self {α : Type} (k : String) (v : α) (l : List (String × α)) :
    alistGet k (alistSet k v l) = some v := by
  simp [alistSet, alistGet_cons]

/-- Erasing a key makes its lookup absent. -/
theorem alistGet_erase_self {α : Type} (k : String) (l : List (String × α)) :
    alistGet k (alistErase k l) = none := by
  induction l with
  | nil => rfl
  | cons p t ih =>
    rw [alistErase_cons]
    by_cases h : p.1 = k
    · simpa [h] using ih
    · rw [if_neg h, alistGet_cons, if_neg h]
      exact ih

/-- Erasing one key leaves lookups of another key unchanged. -/
theorem alistGet_erase_ne {α : Type} {k k2 : String} (h : k2 ≠ k) (l : List (String × α)) :
    alistGet k2 (alistErase k l) = alistGet k2 l := by
  induction l with
  | nil => rfl
  | cons p t ih =>
    rw [alistErase_cons, alistGet_cons]
    by_cases h1 : p.1 = k
    · have h2 : ¬ p.1 = k2 := by rw [h1]; exact fun hx => h hx.symm
      rw [if_pos h1, if_neg h2]
      exact ih
    · rw [if_neg h1, alistGet_cons]
      by_cases h2 : p.1 = k2
      · rw [if_pos h2, if_pos h2]
      · rw [if_neg h2, if_neg h2]
        exact ih

/-- Binding one key leaves lookups of another key unchanged. -/
theorem alistGet_set_ne {α : Type} {k k2 : String} (h : k2 ≠ k) (v : α)
    (l : List (String × α)) : alistGet k2 (alistSet k v l) = alistGet k2 l := by
  rw [alistSet, alistGet_cons, if_neg (fun hx => h hx.symm)]
  exact alistGet_erase_ne h l

/-- Erasing a key after binding it equals erasing it from the original. -/
theorem alistErase_set_self {α : Type} (k : String) (v : α) (l : List (String × α)) :
    alistErase k (alistSet k v l) = alistErase k l := by
  simp [alistErase, alistSet, List.filter_filter]

/-- Appending the lock suffix is injective on keys. -/
theorem lockKey_inj {a b : String} (h : MemoryAdapter.lockKey a = MemoryAdapter.lockKey b) :
    a = b := by
  have hd : a.data ++ (":lock").data = b.data ++ (":lock").data := by
    have := congrArg String.data h
    simpa [MemoryAdapter.lockKey, String.data_append] using this
  have : a.data = b.data := by
    exact List.append_cancel_right hd
  cases a
  cases b
  exact congrArg String.mk this

/-- No single step moves the in-memory clock backwards. -/
theorem apply_now_le (op : MemOp) (s : MemState) : s.now ≤ (op.apply s).now := by
  cases op with
  | get k =>
    simp only [MemOp.apply, MemoryAdapter.get]
    rcases alistGet k s.cache with _ | ⟨v, e⟩ <;> simp
    split <;> simp
  | set k v ttl => simp [MemOp.apply, MemoryAdapter.set]
  | acquire k ttl =>
    simp only [MemOp.apply, MemoryAdapter.acquireLock]
    rcases alistGet (MemoryAdapter.lockKey k) s.locks with _ | e <;> simp
    split <;> simp
  | release k => simp [MemOp.apply, MemoryAdapter.releaseLock]
  | purgeCache k =>
    simp only [MemOp.apply, MemoryAdapter.purgeCache]
    rcases alistGet k s.cache with _ | ⟨v, e⟩ <;> simp
    split <;> simp
  | purgeLock k =>
    simp only [MemOp.apply, MemoryAdapter.purgeLock]
    rcases alistGet (MemoryAdapter.lockKey k) s.locks with _ | e <;> simp
    split <;> simp
  | tick ms => simp [MemOp.apply]

/-- Unfold a run one step at a time. -/
theorem runOps_cons (op : MemOp) (ops : List MemOp) (s : MemState) :
    runOps (op :: ops) s = runOps ops (op.apply s) := rfl

/-- Running steps never moves the in-memory clock backwards. -/
theorem runOps_now_le (ops : List MemOp) (s : MemState) : s.now ≤ (runOps ops s).now := by
  induction ops generalizing s with
  | nil => exact le_rfl
  | cons op t ih =>
    rw [runOps_cons]
    exact le_trans (apply_now_le op s) (ih (op.apply s))

/-- A cache read never changes the locks map. -/
theorem get_locks (k2 : String) (s : MemState) :
    ((MemoryAdapter.get k2 s).2).locks = s.locks := by
  simp only [MemoryAdapter.get]
  cases alistGet k2 s.cache with
  | none => rfl
  | some ve =>
    cases ve with
    | mk v e => dsimp only; split <;> rfl

/-- A cache purge never changes the locks map. -/
theorem purgeCache_locks (k2 : String) (s : MemState) :
    (MemoryAdapter.purgeCache k2 s).locks = s.locks := by
  simp only [MemoryAdapter.purgeCache]
  cases alistGet k2 s.cache with
  | none => rfl
  | some ve =>
    cases ve with
    | mk v e => dsimp only; split <;> rfl

/-- One step that is not a release of key k leaves a still-live lock entry
for k untouched. -/
theorem apply_lock_preserved (k : String) (E : Nat) (op : MemOp)
    (hop : op ≠ MemOp.release k) (s : MemState)
    (hinv : alistGet (MemoryAdapter.lockKey k) s.locks = some E)
    (hnow : s.now < E) :
    alistGet (MemoryAdapter.lockKey k) (op.apply s).locks = some E := by
  have hE0 : E ≠ 0 := by omega
  cases op with
  | get k2 => rw [MemOp.apply, get_locks]; exact hinv
  | set k2 v ttl => exact hinv
  | tick ms => exact hinv
  | purgeCache k2 => rw [MemOp.apply, purgeCache_locks]; exact hinv
  | release k2 =>
    have hk : k2 ≠ k := fun hx => hop (by rw [hx])
    have hkk : MemoryAdapter.lockKey k ≠ MemoryAdapter.lockKey k2 :=
      fun hx => hk (lockKey_inj hx).symm
    rw [MemOp.apply, MemoryAdapter.releaseLock]
    dsimp only
    rw [alistGet_erase_ne hkk]
    exact hinv
  | acquire k2 ttl2 =>
    by_cases hk : k2 = k
    · subst hk
      rw [MemOp.apply, MemoryAdapter.acquireLock, hinv]
      dsimp only
      rw [if_pos ⟨hE0, hnow⟩]
      exact hinv
    · have hkk : MemoryAdapter.lockKey k ≠ MemoryAdapter.lockKey k2 :=
        fun hx => hk (lockKey_inj hx).symm
      rw [MemOp.apply, MemoryAdapter.acquireLock]
      cases alistGet (MemoryAdapter.lockKey k2) s.locks with
      | none => dsimp only; rw [alistGet_set_ne hkk]; exact hinv
      | some e =>
        dsimp only
        split
        · exact hinv
        · dsimp only; rw [alistGet_set_ne hkk]; exact hinv
  | purgeLock k2 =>
    by_cases hk : k2 = k
    · subst hk
      rw [MemOp.apply, MemoryAdapter.purgeLock, hinv]
      dsimp only
      rw [if_neg (by omega)]
      exact hinv
    · have hkk : MemoryAdapter.lockKey k ≠ MemoryAdapter.lockKey k2 :=
        fun hx => hk (lockKey_inj hx).symm
      rw [MemOp.apply, MemoryAdapter.purgeLock]
      cases alistGet (MemoryAdapter.lockKey k2) s.locks with
      | none => exact hinv
      | some e =>
        dsimp only
        split
        · dsimp only; rw [alistGet_erase_ne hkk]; exact hinv
        · exact hinv

/-- A still-live lock entry survives any run of steps that contains no
release of its key and ends before its expiry. -/
theorem runOps_lock_preserved (k : String) (E : Nat) (ops : List MemOp)
    (hnorel : MemOp.release k ∉ ops) (s : MemState)
    (hinv : alistGet (MemoryAdapter.lockKey k) s.locks = some E)
    (hE : (runOps ops s).now < E) :
    alistGet (MemoryAdapter.lockKey k) (runOps ops s).locks = some E := by
  induction ops generalizing s with
  | nil => exact hinv
  | cons op t ih =>
    rw [runOps_cons] at hE ⊢
    have hop : op ≠ MemOp.release k := fun hx => hnorel (by rw [hx]; exact List.mem_cons_self _ _)
    have hnow : s.now < E :=
      lt_of_le_of_lt (le_trans (apply_now_le op s) (runOps_now_le t (op.apply s))) hE
    exact ih (fun hx => hnorel (List.mem_cons_of_mem op hx)) (op.apply s)
      (apply_lock_preserved k E op hop s hinv hnow) hE

/-- A granted MemoryAdapter.acquireLock leaves the clock unchanged and
binds the lock key to expiry now + ttl seconds. -/
theorem acquireLock_true_elim (k : String) (ttl : Nat) (s s1 : MemState)
    (h : MemoryAdapter.acquireLock k ttl s = (true, s1)) :
    s1.now = s.now ∧
      alistGet (MemoryAdapter.lockKey k) s1.locks = some (s.now + ttl * 1000) := by
  unfold MemoryAdapter.acquireLock at h
  cases hx : alistGet (MemoryAdapter.lockKey k) s.locks with
  | none =>
    rw [hx] at h
    dsimp only at h
    have h2 := (Prod.mk.injEq _ _ _ _).mp h
    rw [← h2.2]
    exact ⟨rfl, alistGet_set_self _ _ _⟩
  | some e =>
    rw [hx] at h
    dsimp only at h
    split at h
    · exact absurd ((Prod.mk.injEq _ _ _ _).mp h).1 (by simp)
    · have h2 := (Prod.mk.injEq _ _ _ _).mp h
      rw [← h2.2]
      exact ⟨rfl, alistGet_set_self _ _ _⟩

/-- C2: for the in-memory storage adapter, once acquireLock(k, ttl) is
granted at time t, any later acquireLock(k, _) performed before
t + ttl seconds (modelled in milliseconds) and before any releaseLock(k)
returns false: at most one live lock per key at any instant. -/
theorem memory_lock_mutual_exclusion
    (s0 s1 : MemState) (k : String) (ttl : Nat)
    (hacq : MemoryAdapter.acquireLock k ttl s0 = (true, s1))
    (ops : List MemOp) (hnorel : MemOp.release k ∉ ops)
    (hwindow : (runOps ops s1).now < s0.now + ttl * 1000)
    (ttl2 : Nat) :
    (MemoryAdapter.acquireLock k ttl2 (runOps ops s1)).1 = false := by
  obtain ⟨hnow, hget⟩ := acquireLock_true_elim k ttl s0 s1 hacq
  have hpres := runOps_lock_preserved k (s0.now + ttl * 1000) ops hnorel s1 hget hwindow
  unfold MemoryAdapter.acquireLock
  rw [hpres]
  dsimp only
  rw [if_pos ⟨by omega, hwindow⟩]

/-- Witness for C2 at a concrete state, lock window and step trace. -/
theorem memory_lock_mutual_exclusion_witness :
    MemoryAdapter.acquireLock ("k") 60 ⟨[], [], 0⟩
        = (true, ⟨[], [(("k:lock"), 60000)], 0⟩) ∧
    MemOp.release ("k") ∉ [MemOp.tick 500, MemOp.acquire ("k") 60] ∧
    (runOps [MemOp.tick 500, MemOp.acquire ("k") 60] ⟨[], [(("k:lock"), 60000)], 0⟩).now
        < (⟨[], [], 0⟩ : MemState).now + 60 * 1000 ∧
    (MemoryAdapter.acquireLock ("k") 120
      (runOps [MemOp.tick 500, MemOp.acquire ("k") 60] ⟨[], [(("k:lock"), 60000)], 0⟩)).1
        = false :=
  ⟨by decide, by decide, by decide,
    memory_lock_mutual_exclusion ⟨[], [], 0⟩ ⟨[], [(("k:lock"), 60000)], 0⟩ ("k") 60
      (by decide) [MemOp.tick 500, MemOp.acquire ("k") 60] (by decide) (by decide) 120⟩

/-- C9: for the in-memory adapter, a read after set(k, v, ttl) but before
the expiry instant returns the value; a read strictly after the expiry
instant returns absent and removes the entry — expiry is checked lazily on
the read itself. -/
theorem memory_set_get_ttl (s0 : MemState) (k v : String) (ttl : Nat)
    (_hpos : 0 < ttl) (n : Nat) (_hmono : s0.now ≤ n) :
    (n < s0.now + ttl * 1000 →
      MemoryAdapter.get k { MemoryAdapter.set k v ttl s0 with now := n }
        = (some v, { MemoryAdapter.set k v ttl s0 with now := n })) ∧
    (n > s0.now + ttl * 1000 →
      (MemoryAdapter.get k { MemoryAdapter.set k v ttl s0 with now := n }).1 = none ∧
      alistGet k ((MemoryAdapter.get k
        { MemoryAdapter.set k v ttl s0 with now := n }).2).cache = none) := by
  have hget : alistGet k ({ MemoryAdapter.set k v ttl s0 with now := n }).cache
      = some (v, s0.now + ttl * 1000) := by
    simp only [MemoryAdapter.set]
    exact alistGet_set_self _ _ _
  constructor
  · intro h
    unfold MemoryAdapter.get
    rw [hget]
    dsimp only
    rw [if_neg (by omega)]
  · intro h
    unfold MemoryAdapter.get
    rw [hget]
    dsimp only
    rw [if_pos (by omega)]
    refine ⟨rfl, ?_⟩
    dsimp only
    simp only [MemoryAdapter.set]
    exact alistGet_erase_self _ _

/-- Witness for C9: TTL one second; a read at 500 ms sees the value, a
read at 1500 ms sees nothing and the entry is gone. -/
theorem memory_set_get_ttl_witness :
    (0 < 1 ∧ (⟨[], [], 0⟩ : MemState).now ≤ 500 ∧ 500 < (⟨[], [], 0⟩ : MemState).now + 1 * 1000 ∧
      MemoryAdapter.get ("k") { MemoryAdapter.set ("k") ("v") 1 ⟨[], [], 0⟩ with now := 500 }
        = (some ("v"), { MemoryAdapter.set ("k") ("v") 1 ⟨[], [], 0⟩ with now := 500 })) ∧
    ((1500 : Nat) > (⟨[], [], 0⟩ : MemState).now + 1 * 1000 ∧
      (MemoryAdapter.get ("k")
        { MemoryAdapter.set ("k") ("v") 1 ⟨[], [], 0⟩ with now := 1500 }).1 = none ∧
      alistGet ("k") ((MemoryAdapter.get ("k")
        { MemoryAdapter.set ("k") ("v") 1 ⟨[], [], 0⟩ with now := 1500 }).2).cache = none) :=
  ⟨⟨by decide, by decide, by decide,
     (memory_set_get_ttl ⟨[], [], 0⟩ ("k") ("v") 1 (by decide) 500 (by decide)).1 (by decide)⟩,
   ⟨by decide,
     (memory_set_get_ttl ⟨[], [], 0⟩ ("k") ("v") 1 (by decide) 1500 (by decide)).2 (by decide)⟩⟩

/-- When the first acquisition attempt is granted, the retry loop exits at
once with one attempt and no polling read. -/
theorem lockLoop_acquired_first {σ : Type} (ops : StorageOps σ) (cc : CoordConfig)
    (key : String) (fuel : Nat) (s s1 : σ)
    (h : ops.acquireLock key cc.ttl s = (true, s1)) :
    lockLoop ops cc key (fuel + 1) s = ⟨true, none, s1, 1, 0⟩ := by
  simp [lockLoop, h]

/-- When every acquisition attempt fails and every poll misses, the retry
loop consumes its whole budget: one attempt per fuel unit, never acquired,
no cached hit. -/
theorem lockLoop_all_fail {σ : Type} (ops : StorageOps σ) (cc : CoordConfig) (key : String)
    (ha : ∀ t : σ, (ops.acquireLock key cc.ttl t).1 = false)
    (hg : ∀ t : σ, (ops.get key t).1 = none)
    (fuel : Nat) (s : σ) :
    (lockLoop ops cc key fuel s).acquired = false ∧
    (lockLoop ops cc key fuel s).cachedHit = none ∧
    (lockLoop ops cc key fuel s).attempts = fuel := by
  induction fuel generalizing s with
  | zero => exact ⟨rfl, rfl, rfl⟩
  | succ m ih =>
    cases hx : ops.acquireLock key cc.ttl s with
    | mk b sb =>
      have hb : b = false := by simpa [hx] using ha s
      subst hb
      cases hy : ops.get key (ops.tick cc.lockRetryDelay sb) with
      | mk c sc =>
        have hc : c = none := by simpa [hy] using hg (ops.tick cc.lockRetryDelay sb)
        subst hc
        obtain ⟨ih1, ih2, ih3⟩ := ih sc
        simp [lockLoop, hx, hy, checkCached, ih1, ih2, ih3]

/-- The full shape of one wrapped call on a cache miss whose first lock
attempt is granted: the work runs once, a success is written to the cache
and the lock released; a failure releases the lock without caching. -/
theorem execute_miss_acquired {σ : Type} (ops : StorageOps σ) (cc : CoordConfig)
    (inc : IncludePolicy) (cfg : RequestConfig) (work : Except String AxResponse)
    (s s1 s2 : σ) (key : String) (c0 : Option String)
    (hkey : key = buildIdempotencyKey cfg inc)
    (hmeth : shouldUseIdempotency (some (effectiveMethod cfg)) cc.methods = true)
    (hskip : cfg.skipIdempotency = false)
    (hmax : 0 < cc.maxLockRetries)
    (hget : ops.get key s = (c0, s1))
    (hc : checkCached c0 = none)
    (hacq : ops.acquireLock key cc.ttl s1 = (true, s2)) :
    execute ops cc inc cfg work s =
      match work with
      | .ok r =>
        ⟨.ok (.live r), ops.releaseLock key (ops.set key (serializeResponse r) cc.ttl s2).2,
          1, 1, 1, 1,
          (match (ops.set key (serializeResponse r) cc.ttl s2).1 with
            | .ok _ => 0 | .error _ => 1),
          [key], 0⟩
      | .error e => ⟨.error e, ops.releaseLock key s2, 1, 1, 1, 0, 0, [key], 0⟩ := by
  subst hkey
  obtain ⟨m, hm⟩ := Nat.exists_eq_add_of_lt hmax
  rw [Nat.zero_add] at hm
  have hloop := lockLoop_acquired_first ops cc (buildIdempotencyKey cfg inc) m s1 s2 hacq
  cases work with
  | ok r => simp [execute, hmeth, hskip, hget, hc, hm, hloop]
  | error e => simp [execute, hmeth, hskip, hget, hc, hm, hloop]

/-- C1 (amended): for a request whose method is in the configured
idempotent-method set and that is not skip-flagged, if the backend holds a
truthy (nonempty) value under the request's fingerprint that deserializes
successfully to a JavaScript-truthy value, execute resolves with that
deserialized cached response, the underlying work is not invoked, and no
lock acquisition is attempted. -/
theorem cached_hit_short_circuits {σ : Type} (ops : StorageOps σ) (cc : CoordConfig)
    (inc : IncludePolicy) (cfg : RequestConfig) (work : Except String AxResponse)
    (s s1 : σ) (key d : String) (j : Json)
    (hkey : key = buildIdempotencyKey cfg inc)
    (hmeth : shouldUseIdempotency (some (effectiveMethod cfg)) cc.methods = true)
    (hskip : cfg.skipIdempotency = false)
    (hget : ops.get key s = (some d, s1))
    (hne : d ≠ "")
    (hdeser : deserializeResponse d = some j)
    (htruthy : jsTruthy j = true) :
    execute ops cc inc cfg work s
      = ⟨.ok (.cached j), s1, 0, 1, 0, 0, 0, [], 0⟩ := by
  subst hkey
  simp [execute, hmeth, hskip, hget, checkCached, hne, hdeser, htruthy]

/-- Witness for C1's amended theorem at a concrete backend and request. -/
theorem cached_hit_short_circuits_witness :
    shouldUseIdempotency (some (effectiveMethod postUsersCfg)) CoordConfig.default.methods
        = true ∧
    postUsersCfg.skipIdempotency = false ∧
    HitOps.get (buildIdempotencyKey postUsersCfg IncludePolicy.default) ()
        = (some ("\x7b\"id\":1\x7d"), ()) ∧
    ("\x7b\"id\":1\x7d" : String) ≠ "" ∧
    deserializeResponse ("\x7b\"id\":1\x7d") = some (.obj [("id", .num 1)]) ∧
    jsTruthy (.obj [("id", .num 1)]) = true ∧
    execute HitOps CoordConfig.default IncludePolicy.default postUsersCfg
        (.ok sampleResp) ()
      = ⟨.ok (.cached (.obj [("id", .num 1)])), (), 0, 1, 0, 0, 0, [], 0⟩ :=
  ⟨by decide, rfl, rfl, by decide, rfl, rfl,
    cached_hit_short_circuits HitOps CoordConfig.default IncludePolicy.default postUsersCfg
      (.ok sampleResp) () () (buildIdempotencyKey postUsersCfg IncludePolicy.default)
      ("\x7b\"id\":1\x7d") (.obj [("id", .num 1)]) rfl (by decide) rfl rfl (by decide) rfl rfl⟩

/-- Counterexample to C1 as stated: the cached string "0" deserializes
successfully (to 0), yet the interceptor's truthiness guard rejects it,
the lock is attempted and the work runs — the cached value is not
returned. -/
theorem cached_falsy_value_counterexample :
    deserializeResponse ("0") = some (.num 0) ∧
    (execute ZeroCacheOps CoordConfig.default IncludePolicy.default postUsersCfg
      (.ok sampleResp) ()).workInvocations = 1 ∧
    (execute ZeroCacheOps CoordConfig.default IncludePolicy.default postUsersCfg
      (.ok sampleResp) ()).lockAttempts = 1 ∧
    (execute ZeroCacheOps CoordConfig.default IncludePolicy.default postUsersCfg
      (.ok sampleResp) ()).outcome = .ok (.live sampleResp) ∧
    (execute ZeroCacheOps CoordConfig.default IncludePolicy.default postUsersCfg
      (.ok sampleResp) ()).outcome ≠ .ok (.cached (.num 0)) := by
  refine ⟨rfl, rfl, rfl, rfl, ?_⟩
  intro h
  rw [show (execute ZeroCacheOps CoordConfig.default IncludePolicy.default postUsersCfg
      (.ok sampleResp) ()).outcome = .ok (.live sampleResp) from rfl] at h
  simp at h

/-- C4: when the underlying work succeeds, the caller receives the work's
result whether or not the cache write succeeds (a write failure is only
counted as logged), and the lock for the fingerprint is released in the
cleanup phase regardless. -/
theorem work_success_result_released {σ : Type} (ops : StorageOps σ) (cc : CoordConfig)
    (inc : IncludePolicy) (cfg : RequestConfig) (r : AxResponse)
    (s s1 s2 : σ) (key : String)
    (hkey : key = buildIdempotencyKey cfg inc)
    (hmeth : shouldUseIdempotency (some (effectiveMethod cfg)) cc.methods = true)
    (hskip : cfg.skipIdempotency = false)
    (hmax : 0 < cc.maxLockRetries)
    (hget : ops.get key s = (none, s1))
    (hacq : ops.acquireLock key cc.ttl s1 = (true, s2)) :
    (execute ops cc inc cfg (.ok r) s).outcome = .ok (.live r) ∧
    (execute ops cc inc cfg (.ok r) s).setCalls = 1 ∧
    (execute ops cc inc cfg (.ok r) s).setErrorsLogged
      = (match (ops.set key (serializeResponse r) cc.ttl s2).1 with
          | .ok _ => 0 | .error _ => 1) ∧
    (execute ops cc inc cfg (.ok r) s).releaseCalls = [key] ∧
    (execute ops cc inc cfg (.ok r) s).state
      = ops.releaseLock key (ops.set key (serializeResponse r) cc.ttl s2).2 := by
  have h := execute_miss_acquired ops cc inc cfg (.ok r) s s1 s2 key none
    hkey hmeth hskip hmax hget rfl hacq
  rw [h]
  exact ⟨rfl, rfl, rfl, rfl, rfl⟩

/-- Witness for C4 against a backend whose cache write always fails: the
caller still receives the live response, the failure is only logged, and
the release still happens. -/
theorem work_success_result_released_witness :
    0 < CoordConfig.default.maxLockRetries ∧
    FailingSetOps.get (buildIdempotencyKey postUsersCfg IncludePolicy.default) ()
      = (none, ()) ∧
    FailingSetOps.acquireLock (buildIdempotencyKey postUsersCfg IncludePolicy.default)
      CoordConfig.default.ttl () = (true, ()) ∧
    (execute FailingSetOps CoordConfig.default IncludePolicy.default postUsersCfg
      (.ok sampleResp) ()).outcome = .ok (.live sampleResp) ∧
    (execute FailingSetOps CoordConfig.default IncludePolicy.default postUsersCfg
      (.ok sampleResp) ()).setErrorsLogged = 1 ∧
    (execute FailingSetOps CoordConfig.default IncludePolicy.default postUsersCfg
      (.ok sampleResp) ()).releaseCalls
      = [buildIdempotencyKey postUsersCfg IncludePolicy.default] := by
  have h := work_success_result_released FailingSetOps CoordConfig.default
    IncludePolicy.default postUsersCfg sampleResp () () ()
    (buildIdempotencyKey postUsersCfg IncludePolicy.default)
    rfl (by decide) rfl (by decide) rfl rfl
  exact ⟨by decide, rfl, rfl, h.1, h.2.2.1.trans rfl, h.2.2.2.1⟩

/-- C5: when every lock attempt fails and no cache entry ever appears
while polling, the coordinator logs exactly one warning, consumes exactly
maxLockRetries acquisition attempts, and still executes the underlying
request, whose outcome is returned — fail-open, bounded. -/
theorem lock_exhaustion_fail_open {σ : Type} (ops : StorageOps σ) (cc : CoordConfig)
    (inc : IncludePolicy) (cfg : RequestConfig) (work : Except String AxResponse)
    (s : σ) (key : String)
    (hkey : key = buildIdempotencyKey cfg inc)
    (hmeth : shouldUseIdempotency (some (effectiveMethod cfg)) cc.methods = true)
    (hskip : cfg.skipIdempotency = false)
    (ha : ∀ t : σ, (ops.acquireLock key cc.ttl t).1 = false)
    (hg : ∀ t : σ, (ops.get key t).1 = none) :
    (execute ops cc inc cfg work s).warnings = 1 ∧
    (execute ops cc inc cfg work s).workInvocations = 1 ∧
    (execute ops cc inc cfg work s).lockAttempts = cc.maxLockRetries ∧
    (execute ops cc inc cfg work s).outcome = work.map RespValue.live := by
  subst hkey
  cases hx : ops.get (buildIdempotencyKey cfg inc) s with
  | mk c s1 =>
    have hc : c = none := by simpa [hx] using hg s
    subst hc
    obtain ⟨l1, l2, l3⟩ := lockLoop_all_fail ops cc (buildIdempotencyKey cfg inc) ha hg
      cc.maxLockRetries s1
    cases work with
    | ok r => simp [execute, hmeth, hskip, hx, checkCached, l1, l2, l3, Except.map]
    | error e => simp [execute, hmeth, hskip, hx, checkCached, l1, l2, l3, Except.map]

/-- Witness for C5 against a permanently contended backend with the
default retry budget of 10. -/
theorem lock_exhaustion_fail_open_witness :
    shouldUseIdempotency (some (effectiveMethod postUsersCfg)) CoordConfig.default.methods
      = true ∧
    postUsersCfg.skipIdempotency = false ∧
    (∀ t : Unit, (ContendedOps.acquireLock
      (buildIdempotencyKey postUsersCfg IncludePolicy.default)
      CoordConfig.default.ttl t).1 = false) ∧
    (∀ t : Unit, (ContendedOps.get
      (buildIdempotencyKey postUsersCfg IncludePolicy.default) t).1 = none) ∧
    (execute ContendedOps CoordConfig.default IncludePolicy.default postUsersCfg
      (.ok sampleResp) ()).warnings = 1 ∧
    (execute ContendedOps CoordConfig.default IncludePolicy.default postUsersCfg
      (.ok sampleResp) ()).workInvocations = 1 ∧
    (execute ContendedOps CoordConfig.default IncludePolicy.default postUsersCfg
      (.ok sampleResp) ()).lockAttempts = 10 ∧
    (execute ContendedOps CoordConfig.default IncludePolicy.default postUsersCfg
      (.ok sampleResp) ()).outcome = .ok (.live sampleResp) := by
  have h := lock_exhaustion_fail_open ContendedOps CoordConfig.default
    IncludePolicy.default postUsersCfg (.ok sampleResp) ()
    (buildIdempotencyKey postUsersCfg IncludePolicy.default)
    rfl (by decide) rfl (fun t => rfl) (fun t => rfl)
  exact ⟨by decide, rfl, fun t => rfl, fun t => rfl, h.1, h.2.1, h.2.2.1.trans rfl,
    h.2.2.2.trans rfl⟩

/-- C10: deserializeResponse is total — every string yields either a
parsed value or null — and a backend entry that does not parse as JSON is
treated as a cache miss: the call proceeds to lock acquisition and
executes the underlying request. -/
theorem corrupt_cache_entry_is_miss {σ : Type} (ops : StorageOps σ) (cc : CoordConfig)
    (inc : IncludePolicy) (cfg : RequestConfig) (work : Except String AxResponse)
    (s s1 s2 : σ) (key d : String)
    (hkey : key = buildIdempotencyKey cfg inc)
    (hmeth : shouldUseIdempotency (some (effectiveMethod cfg)) cc.methods = true)
    (hskip : cfg.skipIdempotency = false)
    (hmax : 0 < cc.maxLockRetries)
    (hget : ops.get key s = (some d, s1))
    (hdeser : deserializeResponse d = none)
    (hacq : ops.acquireLock key cc.ttl s1 = (true, s2)) :
    (∀ t : String, deserializeResponse t = none ∨ ∃ v, deserializeResponse t = some v) ∧
    (execute ops cc inc cfg work s).lockAttempts = 1 ∧
    (execute ops cc inc cfg work s).workInvocations = 1 ∧
    (execute ops cc inc cfg work s).outcome = work.map RespValue.live := by
  have hc : checkCached (some d) = none := by
    by_cases hd : d = "" <;> simp [checkCached, hd, hdeser]
  have h := execute_miss_acquired ops cc inc cfg work s s1 s2 key (some d)
    hkey hmeth hskip hmax hget hc hacq
  refine ⟨fun t => ?_, ?_, ?_, ?_⟩
  · cases hx : deserializeResponse t with
    | none => exact Or.inl rfl
    | some v => exact Or.inr ⟨v, rfl⟩
  · rw [h]; cases work <;> rfl
  · rw [h]; cases work <;> rfl
  · rw [h]; cases work <;> rfl

/-- Witness for C10 with the backend holding a non-JSON entry. -/
theorem corrupt_cache_entry_is_miss_witness :
    CorruptCacheOps.get (buildIdempotencyKey postUsersCfg IncludePolicy.default) ()
      = (some ("not valid json \x7b"), ()) ∧
    deserializeResponse ("not valid json \x7b") = none ∧
    (execute CorruptCacheOps CoordConfig.default IncludePolicy.default postUsersCfg
      (.ok sampleResp) ()).lockAttempts = 1 ∧
    (execute CorruptCacheOps CoordConfig.default IncludePolicy.default postUsersCfg
      (.ok sampleResp) ()).workInvocations = 1 ∧
    (execute CorruptCacheOps CoordConfig.default IncludePolicy.default postUsersCfg
      (.ok sampleResp) ()).outcome = .ok (.live sampleResp) := by
  have h := corrupt_cache_entry_is_miss CorruptCacheOps CoordConfig.default
    IncludePolicy.default postUsersCfg (.ok sampleResp) () () ()
    (buildIdempotencyKey postUsersCfg IncludePolicy.default) ("not valid json \x7b")
    rfl (by decide) rfl (by decide) rfl rfl rfl
  exact ⟨rfl, rfl, h.2.1, h.2.2.1, h.2.2.2.trans rfl⟩

/-- C8: a skip-flagged request, or one whose method is outside the
configured set, bypasses entirely: the work runs and its outcome is
returned unmodified with no cache read or write, no lock attempt and no
release; two such identical calls both invoke the work. -/
theorem bypass_no_storage {σ : Type} (ops : StorageOps σ) (cc : CoordConfig)
    (inc : IncludePolicy) (cfg : RequestConfig) (work work2 : Except String AxResponse)
    (s : σ)
    (hbyp : shouldUseIdempotency (some (effectiveMethod cfg)) cc.methods = false
      ∨ cfg.skipIdempotency = true) :
    execute ops cc inc cfg work s
      = ⟨work.map RespValue.live, s, 1, 0, 0, 0, 0, [], 0⟩ ∧
    (execute ops cc inc cfg work s).workInvocations
      + (execute ops cc inc cfg work2
          (execute ops cc inc cfg work s).state).workInvocations = 2 := by
  have h1 : ∀ w : Except String AxResponse, execute ops cc inc cfg w s
      = ⟨w.map RespValue.live, s, 1, 0, 0, 0, 0, [], 0⟩ := by
    intro w
    rcases hbyp with h | h <;> cases w <;> simp [execute, h, Except.map]
  refine ⟨h1 work, ?_⟩
  rw [h1 work]
  dsimp only
  rw [h1 work2]
  rfl

/-- Witness for C8 with a skip-flagged POST call made twice. -/
theorem bypass_no_storage_witness :
    (shouldUseIdempotency (some (effectiveMethod skipPostCfg)) CoordConfig.default.methods
        = false ∨ skipPostCfg.skipIdempotency = true) ∧
    execute FreeOps CoordConfig.default IncludePolicy.default skipPostCfg
        (.ok sampleResp) ()
      = ⟨.ok (.live sampleResp), (), 1, 0, 0, 0, 0, [], 0⟩ ∧
    (execute FreeOps CoordConfig.default IncludePolicy.default skipPostCfg
        (.ok sampleResp) ()).workInvocations
      + (execute FreeOps CoordConfig.default IncludePolicy.default skipPostCfg
          (.ok sampleResp)
          (execute FreeOps CoordConfig.default IncludePolicy.default skipPostCfg
            (.ok sampleResp) ()).state).workInvocations = 2 := by
  have h := bypass_no_storage FreeOps CoordConfig.default IncludePolicy.default
    skipPostCfg (.ok sampleResp) (.ok sampleResp) () (Or.inr rfl)
  exact ⟨Or.inr rfl, h.1.trans rfl, h.2⟩

/-- C3: when the underlying work fails, nothing is written to the cache
under the fingerprint, the lock for the fingerprint is released, and the
failure is propagated verbatim; a subsequent call with the same
fingerprint executes the work again. Stated against the in-memory
backend. -/
theorem work_failure_not_cached (cc : CoordConfig) (inc : IncludePolicy)
    (cfg : RequestConfig) (e : String) (r2 : AxResponse) (s : MemState) (key : String)
    (hkey : key = buildIdempotencyKey cfg inc)
    (hmeth : shouldUseIdempotency (some (effectiveMethod cfg)) cc.methods = true)
    (hskip : cfg.skipIdempotency = false)
    (hmax : 0 < cc.maxLockRetries)
    (hmiss : alistGet key s.cache = none)
    (hnolock : alistGet (MemoryAdapter.lockKey key) s.locks = none) :
    (execute MemStorage cc inc cfg (.error e) s).outcome = .error e ∧
    (execute MemStorage cc inc cfg (.error e) s).setCalls = 0 ∧
    (execute MemStorage cc inc cfg (.error e) s).releaseCalls = [key] ∧
    (execute MemStorage cc inc cfg (.error e) s).state.cache = s.cache ∧
    alistGet (MemoryAdapter.lockKey key)
      (execute MemStorage cc inc cfg (.error e) s).state.locks = none ∧
    (execute MemStorage cc inc cfg (.ok r2)
      (execute MemStorage cc inc cfg (.error e) s).state).workInvocations = 1 := by
  have hget : MemStorage.get key s = (none, s) := by
    show MemoryAdapter.get key s = (none, s)
    unfold MemoryAdapter.get
    rw [hmiss]
  have hacq : MemStorage.acquireLock key cc.ttl s = (true, { s with locks := alistSet (MemoryAdapter.lockKey key) (s.now + cc.ttl * 1000) s.locks }) := by
    show MemoryAdapter.acquireLock key cc.ttl s = _
    unfold MemoryAdapter.acquireLock
    rw [hnolock]
  have h := execute_miss_acquired MemStorage cc inc cfg (.error e) s s { s with locks := alistSet (MemoryAdapter.lockKey key) (s.now + cc.ttl * 1000) s.locks } key none hkey hmeth hskip hmax hget rfl hacq
  have hstate : (execute MemStorage cc inc cfg (.error e) s).state = { s with locks := alistErase (MemoryAdapter.lockKey key) (alistSet (MemoryAdapter.lockKey key) (s.now + cc.ttl * 1000) s.locks) } := by
    rw [h]
    rfl
  have hcache : (execute MemStorage cc inc cfg (.error e) s).state.cache = s.cache := by
    rw [hstate]
  have hlocks : alistGet (MemoryAdapter.lockKey key)
      (execute MemStorage cc inc cfg (.error e) s).state.locks = none := by
    rw [hstate]
    dsimp only
    rw [alistErase_set_self]
    exact alistGet_erase_self _ _
  refine ⟨by rw [h], by rw [h], by rw [h], hcache, hlocks, ?_⟩
  have hget2 : MemStorage.get key (execute MemStorage cc inc cfg (.error e) s).state = (none, (execute MemStorage cc inc cfg (.error e) s).state) := by
    show MemoryAdapter.get key _ = _
    unfold MemoryAdapter.get
    rw [hcache, hmiss]
  have hacq2 : MemStorage.acquireLock key cc.ttl (execute MemStorage cc inc cfg (.error e) s).state = (true, { (execute MemStorage cc inc cfg (.error e) s).state with locks := alistSet (MemoryAdapter.lockKey key) ((execute MemStorage cc inc cfg (.error e) s).state.now + cc.ttl * 1000) (execute MemStorage cc inc cfg (.error e) s).state.locks }) := by
    show MemoryAdapter.acquireLock key cc.ttl _ = _
    unfold MemoryAdapter.acquireLock
    rw [hlocks]
  have h2 := execute_miss_acquired MemStorage cc inc cfg (.ok r2) (execute MemStorage cc inc cfg (.error e) s).state (execute MemStorage cc inc cfg (.error e) s).state { (execute MemStorage cc inc cfg (.error e) s).state with locks := alistSet (MemoryAdapter.lockKey key) ((execute MemStorage cc inc cfg (.error e) s).state.now + cc.ttl * 1000) (execute MemStorage cc inc cfg (.error e) s).state.locks } key none hkey hmeth hskip hmax hget2 rfl hacq2
  rw [h2]

/-- Witness for C3 from the empty in-memory state. -/
theorem work_failure_not_cached_witness :
    0 < CoordConfig.default.maxLockRetries ∧
    alistGet (buildIdempotencyKey postUsersCfg IncludePolicy.default)
      (⟨[], [], 0⟩ : MemState).cache = none ∧
    alistGet (MemoryAdapter.lockKey (buildIdempotencyKey postUsersCfg IncludePolicy.default))
      (⟨[], [], 0⟩ : MemState).locks = none ∧
    (execute MemStorage CoordConfig.default IncludePolicy.default postUsersCfg
      (.error ("boom")) ⟨[], [], 0⟩).outcome = .error ("boom") ∧
    (execute MemStorage CoordConfig.default IncludePolicy.default postUsersCfg
      (.error ("boom")) ⟨[], [], 0⟩).setCalls = 0 ∧
    alistGet (MemoryAdapter.lockKey (buildIdempotencyKey postUsersCfg IncludePolicy.default))
      (execute MemStorage CoordConfig.default IncludePolicy.default postUsersCfg
        (.error ("boom")) ⟨[], [], 0⟩).state.locks = none ∧
    (execute MemStorage CoordConfig.default IncludePolicy.default postUsersCfg
      (.ok sampleResp)
      (execute MemStorage CoordConfig.default IncludePolicy.default postUsersCfg
        (.error ("boom")) ⟨[], [], 0⟩).state).workInvocations = 1 := by
  have h := work_failure_not_cached CoordConfig.default IncludePolicy.default
    postUsersCfg ("boom") sampleResp ⟨[], [], 0⟩
    (buildIdempotencyKey postUsersCfg IncludePolicy.default)
    rfl (by decide) rfl (by decide) rfl rfl
  exact ⟨by decide, rfl, rfl, h.1, h.2.1, h.2.2.2.2.1, h.2.2.2.2.2⟩

/-- Canonicalizing fields maps canonicalization over the values. -/
theorem canonicalFields_eq_map (fs : List (String × Json)) :
    Json.canonicalFields fs = fs.map (fun p => (p.1, p.2.canonical)) := by
  induction fs with
  | nil => rfl
  | cons p t ih =>
    cases p with
    | mk k v => simp [Json.canonicalFields, ih]

/-- Two permuted field lists with duplicate-free keys sort to the same
list: the heart of key-order-insensitive canonicalization. -/
theorem sortFields_eq_of_perm {l1 l2 : List (String × Json)} (hp : l1.Perm l2)
    (hnd : (l1.map Prod.fst).Nodup) : sortFields l1 = sortFields l2 := by
  have hperm : (sortFields l1).Perm (sortFields l2) :=
    (List.perm_insertionSort fieldLe l1).trans
      (hp.trans (List.perm_insertionSort fieldLe l2).symm)
  have hs1 : List.Sorted fieldLe (sortFields l1) := List.sorted_insertionSort fieldLe l1
  have hs2 : List.Sorted fieldLe (sortFields l2) := List.sorted_insertionSort fieldLe l2
  have hnd1 : ((sortFields l1).map Prod.fst).Nodup :=
    (((List.perm_insertionSort fieldLe l1).map Prod.fst).nodup_iff).mpr hnd
  have hnd2 : ((sortFields l2).map Prod.fst).Nodup :=
    ((((List.perm_insertionSort fieldLe l2).trans hp.symm).map Prod.fst).nodup_iff).mpr hnd
  have hlt1 : List.Sorted (fun a b : String × Json => a.1 < b.1) (sortFields l1) := by
    have hne := (List.pairwise_map).mp hnd1
    exact (hs1.and hne).imp (fun h => lt_of_le_of_ne h.1 h.2)
  have hlt2 : List.Sorted (fun a b : String × Json => a.1 < b.1) (sortFields l2) := by
    have hne := (List.pairwise_map).mp hnd2
    exact (hs2.and hne).imp (fun h => lt_of_le_of_ne h.1 h.2)
  exact List.eq_of_perm_of_sorted hperm hlt1 hlt2

/-- C6: two request descriptors identical except for the key order of a
structured (duplicate-key-free) body produce equal fingerprints under
includeBody=true — object keys are recursively sorted before
serialization. -/
theorem idempotency_key_ignores_body_key_order
    (m u : Option String) (ps hs : List (String × String)) (sk : Bool)
    (inc : IncludePolicy) (hbody : inc.body = true)
    (fs1 fs2 : List (String × Json)) (hperm : fs1.Perm fs2)
    (hnd : (fs1.map Prod.fst).Nodup) :
    buildIdempotencyKey ⟨m, u, ps, hs, some (.json (.obj fs1)), sk⟩ inc
      = buildIdempotencyKey ⟨m, u, ps, hs, some (.json (.obj fs2)), sk⟩ inc := by
  have hcanperm : (Json.canonicalFields fs1).Perm (Json.canonicalFields fs2) := by
    rw [canonicalFields_eq_map, canonicalFields_eq_map]
    exact hperm.map _
  have hcannd : ((Json.canonicalFields fs1).map Prod.fst).Nodup := by
    rw [canonicalFields_eq_map]
    simpa [List.map_map, Function.comp] using hnd
  have hsort := sortFields_eq_of_perm hcanperm hcannd
  have hbodyeq : bodyFacet (some (.json (.obj fs1)))
      = bodyFacet (some (.json (.obj fs2))) := by
    simp [bodyFacet, Json.canonical, hsort]
  simp [buildIdempotencyKey, serializeFacets, selectedFacets, hbody, hbodyeq]

/-- Witness for C6 with the test suite's reordered three-field body. -/
theorem idempotency_key_ignores_body_key_order_witness :
    ([(("name"), Json.str ("John")), (("email"), Json.str ("john@example.com")),
        (("age"), Json.num 30)].Perm
      [(("age"), Json.num 30), (("email"), Json.str ("john@example.com")),
        (("name"), Json.str ("John"))]) ∧
    (([(("name"), Json.str ("John")), (("email"), Json.str ("john@example.com")),
        (("age"), Json.num 30)].map Prod.fst).Nodup) ∧
    buildIdempotencyKey
        ⟨some ("POST"), some ("/api/users"), [], [],
          some (.json (.obj [(("name"), Json.str ("John")),
            (("email"), Json.str ("john@example.com")), (("age"), Json.num 30)])), false⟩
        IncludePolicy.default
      = buildIdempotencyKey
        ⟨some ("POST"), some ("/api/users"), [], [],
          some (.json (.obj [(("age"), Json.num 30),
            (("email"), Json.str ("john@example.com")), (("name"), Json.str ("John"))])), false⟩
        IncludePolicy.default := by
  have hperm : ([(("name"), Json.str ("John")), (("email"), Json.str ("john@example.com")),
      (("age"), Json.num 30)].Perm
    [(("age"), Json.num 30), (("email"), Json.str ("john@example.com")),
      (("name"), Json.str ("John"))]) := by
    simpa using (List.reverse_perm [(("name"), Json.str ("John")),
      (("email"), Json.str ("john@example.com")), (("age"), Json.num 30)]).symm
  have hnd : (([(("name"), Json.str ("John")), (("email"), Json.str ("john@example.com")),
      (("age"), Json.num 30)].map Prod.fst).Nodup) := by decide
  exact ⟨hperm, hnd,
    idempotency_key_ignores_body_key_order (some ("POST")) (some ("/api/users")) [] [] false
      IncludePolicy.default rfl _ _ hperm hnd⟩

/-- Every value below sixteen maps to a lowercase hexadecimal digit. -/
theorem hexDigit_mem (n : Nat) (h : n < 16) : hexDigit n ∈ hexDigitsList := by
  interval_cases n <;> decide

/-- Each word renders as exactly eight characters. -/
theorem wordHexChars_length (w : Nat) : (wordHexChars w).length = 8 := by
  simp [wordHexChars]

/-- The hexadecimal SHA-256 digest of any string is 64 characters long. -/
theorem sha256Hex_length (s : String) : (sha256Hex s).length = 64 := by
  show (((sha256Words (strBytes s)).words.map wordHexChars).flatten).length = 64
  rw [List.length_flatten]
  simp [H8.words, wordHexChars_length]

/-- Every character of the hexadecimal SHA-256 digest is a lowercase hex
digit. -/
theorem sha256Hex_chars (s : String) :
    ∀ c ∈ (sha256Hex s).data, c ∈ hexDigitsList := by
  intro c hc
  have hc2 : c ∈ ((sha256Words (strBytes s)).words.map wordHexChars).flatten := hc
  rw [List.mem_flatten] at hc2
  obtain ⟨l, hl, hcl⟩ := hc2
  rw [List.mem_map] at hl
  obtain ⟨w, _, rfl⟩ := hl
  rw [wordHexChars, List.mem_map] at hcl
  obtain ⟨i, _, rfl⟩ := hcl
  exact hexDigit_mem _ (Nat.mod_lt _ (by norm_num))

/-- C7 (amended): every cache key is the fixed namespace tag
"axios-idempotent:" followed by the 64-character lowercase hexadecimal
SHA-256 digest of the deterministically serialized selected facets, and
both storage adapters derive the lock key by appending ":lock" to the
cache key. -/
theorem key_layout (cfg : RequestConfig) (inc : IncludePolicy) :
    buildIdempotencyKey cfg inc
      = "axios-idempotent:" ++ sha256Hex (serializeFacets cfg inc) ∧
    (sha256Hex (serializeFacets cfg inc)).length = 64 ∧
    (∀ c ∈ (sha256Hex (serializeFacets cfg inc)).data, c ∈ hexDigitsList) ∧
    MemoryAdapter.lockKey (buildIdempotencyKey cfg inc)
      = buildIdempotencyKey cfg inc ++ ":lock" ∧
    RedisAdapter.lockKey (buildIdempotencyKey cfg inc)
      = buildIdempotencyKey cfg inc ++ ":lock" :=
  ⟨rfl, sha256Hex_length _, sha256Hex_chars _, rfl, rfl⟩

/-- Counterexample to C7 as stated: for a concrete POST request the cache
key does not equal "idempotent:" followed by the digest — the namespace
tag the code (and its tests) use is "axios-idempotent:". -/
theorem key_tag_counterexample :
    ¬ (buildIdempotencyKey postUsersCfg IncludePolicy.default
        = "idempotent:" ++ sha256Hex (serializeFacets postUsersCfg IncludePolicy.default)) := by
  intro h
  have h0 : buildIdempotencyKey postUsersCfg IncludePolicy.default
      = "axios-idempotent:" ++ sha256Hex (serializeFacets postUsersCfg IncludePolicy.default) :=
    rfl
  rw [h0] at h
  have hlen := congrArg String.length h
  rw [String.length_append, String.length_append] at hlen
  have h17 : ("axios-idempotent:" : String).length = 17 := rfl
  have h11 : ("idempotent:" : String).length = 11 := rfl
  rw [h17, h11] at hlen
  omega
